import Mathlib

/-!
Shallow embedding of the clipboard-history extension's synchronization and
permission logic, translated from the TypeScript sources:

* storage module (`ensureValidHistory`, `addToHistory`, `loadHistory`,
  `removeFromHistory`, `clearHistory`, `handleSyncOperation`),
* `ClipboardSyncManager` (`broadcastOperation`, `createItem`, `deleteItem`,
  `clearHistory`, `handleIncomingOperation`) from `src/logic/sync.ts`,
* `SyncConflictResolver` (`validateOperation`, `resolveConflicts`) from
  the sync-utils module,
* `PermissionManager` (`checkClipboardPermission`,
  `shouldShowPermissionRequest`, `queryClipboardPermission`) from
  `src/logic/permissions.ts`.

JavaScript numbers are modelled as `Int` (all values used by this logic are
integral), JS string truthiness (`""` is falsy) is made explicit at each use
site, and optional fields are `Option`.  External effects (the clipboard
probe, `Date.now()`, `crypto.randomUUID()`, message sends) are passed in as
explicit parameters; message sends have no effect on the modelled state since
every send failure is swallowed by the source.
-/

namespace ClipboardExt

/-- Item kind, `'text' | 'image'` in the source. -/
inductive ItemType where
  | text
  | image
deriving DecidableEq, Repr

/-- `ClipboardItem` from the storage module. -/
structure ClipboardItem where
  id : String
  content : String
  timestamp : Int
  type : ItemType
  source : Option String := none
deriving DecidableEq, Repr

/-- `ClipboardHistory` from the storage module. -/
structure ClipboardHistory where
  items : List ClipboardItem
  maxItems : Int
deriving DecidableEq, Repr

/-- `DEFAULT_HISTORY = { items: [], maxItems: 50 }`. -/
def DEFAULT_HISTORY : ClipboardHistory := ⟨[], 50⟩

/-- JavaScript `Array.prototype.slice(0, e)`: a negative end index counts
from the end of the array and clamps at zero. -/
def jsSlice {α : Type} (l : List α) (e : Int) : List α :=
  if e < 0 then l.take ((l.length : Int) + e).toNat else l.take e.toNat

/-- The persisted `items` field before normalization: either an actual
array or any non-array JS value (absent, null, a number, ...). -/
inductive RawItems where
  | arr (items : List ClipboardItem)
  | notArray
deriving DecidableEq, Repr

/-- The persisted `maxItems` field before normalization: either a JS number
or any non-number JS value (absent, null, a string, ...). -/
inductive RawMax where
  | num (n : Int)
  | notNumber
deriving DecidableEq, Repr

/-- A persisted `clipboardHistory` value as read back from storage, before
`ensureValidHistory` has normalized it. -/
structure RawHistory where
  items : RawItems
  maxItems : RawMax
deriving DecidableEq, Repr

/-- `ensureValidHistory`: replaces a non-array `items` with `[]` and a
non-number `maxItems` with `DEFAULT_HISTORY.maxItems`; any numeric
`maxItems` (including zero and negatives) is kept as-is, because the source
only tests `typeof history.maxItems !== 'number'`. -/
def ensureValidHistory (raw : RawHistory) : ClipboardHistory :=
  { items :=
      match raw.items with
      | .arr l => l
      | .notArray => []
    maxItems :=
      match raw.maxItems with
      | .num n => n
      | .notNumber => DEFAULT_HISTORY.maxItems }

/-- `loadHistory`: re-reads the stored value through `ensureValidHistory`
(the re-assignment to the reactive ref does not change the returned data). -/
def loadHistory (raw : RawHistory) : ClipboardHistory :=
  ensureValidHistory raw

/-- `addToHistory`: builds a fresh item (`crypto.randomUUID()` and
`Date.now()` are passed in as `newId` / `now`) and prepends it, truncating
with `[newItem, ...history.items].slice(0, history.maxItems)`. -/
def addToHistory (h : ClipboardHistory) (content : String) (ty : ItemType)
    (src : Option String) (newId : String) (now : Int) : ClipboardHistory :=
  let newItem : ClipboardItem := ⟨newId, content, now, ty, src⟩
  { h with items := jsSlice (newItem :: h.items) h.maxItems }

/-- `removeFromHistory`: keeps the items whose `id` differs. -/
def removeFromHistory (h : ClipboardHistory) (id : String) : ClipboardHistory :=
  { h with items := h.items.filter (fun it => it.id != id) }

/-- Storage-module `clearHistory`: overwrites the stored value with
`{ ...DEFAULT_HISTORY }`, discarding the previous state entirely. -/
def clearHistory (_h : ClipboardHistory) : ClipboardHistory :=
  DEFAULT_HISTORY

/-! ### Sync operations -/

/-- Operation kind, `'create' | 'delete' | 'clear' | 'update'`. -/
inductive OpType where
  | create
  | delete
  | clear
  | update
deriving DecidableEq, Repr

/-- Operation origin, `'popup' | 'sidepanel' | 'content' | 'background'`. -/
inductive OpSource where
  | popup
  | sidepanel
  | content
  | background
deriving DecidableEq, Repr

/-- `SyncOperation` from `src/logic/sync.ts`. -/
structure SyncOperation where
  type : OpType
  itemId : Option String := none
  data : Option ClipboardItem := none
  timestamp : Int
  source : OpSource
deriving DecidableEq, Repr

/-- JS truthiness of the optional string field `operation.itemId`:
`undefined` and `""` are falsy; a non-empty string is kept. -/
def truthyId (o : Option String) : Option String :=
  match o with
  | some s => if s = "" then none else some s
  | none => none

/-- Result record of `SyncConflictResolver.validateOperation`. -/
structure ValidationResult where
  valid : Bool
  error : Option String := none
deriving DecidableEq, Repr

/-- `SyncConflictResolver.validateOperation`, check for check.  The `type`
and `source` membership tests are vacuous in this typed embedding (the
enums carry exactly the recognized values); `!operation.timestamp` is the
JS falsiness test, i.e. `timestamp = 0`.  For `create` both `data.id` and
`data.content` must be truthy (non-empty); for `update` only the presence
of `data` and a truthy `itemId` are checked; for `delete` a truthy
`itemId`; `clear` needs nothing further. -/
def validateOperation (op : SyncOperation) : ValidationResult :=
  if op.timestamp = 0 then
    ⟨false, some "Invalid timestamp"⟩
  else
    match op.type with
    | .create =>
      match op.data with
      | none => ⟨false, some "Create operation requires data"⟩
      | some d =>
        if d.id = "" ∨ d.content = "" then
          ⟨false, some "Create operation data is incomplete"⟩
        else
          ⟨true, none⟩
    | .delete =>
      match truthyId op.itemId with
      | some _ => ⟨true, none⟩
      | none => ⟨false, some "Delete operation requires itemId"⟩
    | .update =>
      if op.data = none ∨ truthyId op.itemId = none then
        ⟨false, some "Update operation requires both data and itemId"⟩
      else
        ⟨true, none⟩
    | .clear => ⟨true, none⟩

example : (validateOperation ⟨.clear, none, none, 5, .popup⟩).valid = true := by rfl
example : (validateOperation ⟨.delete, some "", none, 5, .popup⟩).valid = false := by rfl
example :
    (validateOperation
      ⟨.create, some "a", some ⟨"a", "hello", 1, .text, none⟩, 5, .popup⟩).valid = true := by rfl

/-! ### Conflict resolution (`SyncConflictResolver.resolveConflicts`) -/

/-- One entry of the `ConflictResolution[]` result. -/
structure ConflictResolution where
  resolved : Bool
  operation : Option SyncOperation := none
  error : Option String := none
deriving DecidableEq, Repr

/-- Timestamp order used by `[...operations].sort((a, b) => a.timestamp - b.timestamp)`. -/
def tsLe (a b : SyncOperation) : Prop :=
  a.timestamp ≤ b.timestamp

instance : DecidableRel tsLe := fun a b => Int.decLe a.timestamp b.timestamp

instance : IsTotal SyncOperation tsLe := ⟨fun a b => Int.le_total a.timestamp b.timestamp⟩

instance : IsTrans SyncOperation tsLe := ⟨fun _ _ _ h h2 => le_trans h h2⟩

/-- The sorted copy `[...operations].sort((a, b) => a.timestamp - b.timestamp)`.
ECMAScript `Array.prototype.sort` is required to be stable, and the output of
a stable sort is uniquely determined by the key order, so the stable
insertion sort is extensionally equal to it. -/
def sortByTimestamp (ops : List SyncOperation) : List SyncOperation :=
  List.insertionSort tsLe ops

/-- The loop body of `resolveConflicts`: walks the sorted operations with the
`processedIds` set (modelled as a list).  An operation with a truthy `itemId`
that is already in the set is pushed as unresolved; otherwise its truthy
`itemId` (if any) is added and the operation is pushed as resolved. -/
def resolveLoop (seen : List String) : List SyncOperation → List ConflictResolution
  | [] => []
  | op :: rest =>
    match truthyId op.itemId with
    | some s =>
      if s ∈ seen then
        ⟨false, none, some ("Conflict detected for item " ++ s)⟩ :: resolveLoop seen rest
      else
        ⟨true, some op, none⟩ :: resolveLoop (s :: seen) rest
    | none => ⟨true, some op, none⟩ :: resolveLoop seen rest

/-- `SyncConflictResolver.resolveConflicts`. -/
def resolveConflicts (ops : List SyncOperation) : List ConflictResolution :=
  resolveLoop [] (sortByTimestamp ops)

/-! ### ClipboardSyncManager (`src/logic/sync.ts`) -/

/-- The `SyncStatus` record owned by the manager. -/
structure SyncStatusState where
  isSyncing : Bool
  lastSyncTime : Int
  pendingOperations : List SyncOperation
  error : Option String := none
deriving DecidableEq, Repr

/-- In-memory state touched by `ClipboardSyncManager`: the shared
`clipboardHistory` storage value plus its own `syncStatus`. -/
structure ManagerState where
  history : ClipboardHistory
  status : SyncStatusState
deriving DecidableEq, Repr

/-- The `switch (operation.type)` of
`ClipboardSyncManager.handleIncomingOperation`, acting on
`clipboardHistory.value.items`.  Note that unlike the storage module's
`handleSyncOperation`, the `create` arm prepends WITHOUT truncating to
`maxItems` (there is no `.slice(0, maxItems)` in this file). -/
def applyIncomingToItems (items : List ClipboardItem) (op : SyncOperation) :
    List ClipboardItem :=
  match op.type with
  | .create =>
    match op.data with
    | some d =>
      if (items.find? (fun it => it.id == d.id)).isSome then items else d :: items
    | none => items
  | .delete =>
    match truthyId op.itemId with
    | some s => items.filter (fun it => it.id != s)
    | none => items
  | .clear => []
  | .update =>
    match op.data with
    | some d =>
      match items.findIdx? (fun it => it.id == d.id) with
      | some idx => items.set idx d
      | none => items
    | none => items

/-- `ClipboardSyncManager.handleIncomingOperation`: drops operations whose
`source` is `background`, drops invalid operations, otherwise applies the
switch above to the stored items and stamps `lastSyncTime = Date.now()`
through `updateStatus`. -/
def handleIncomingOperation (st : ManagerState) (op : SyncOperation) (now : Int) :
    ManagerState :=
  if op.source = .background then st
  else if (validateOperation op).valid = false then st
  else
    { history := { st.history with items := applyIncomingToItems st.history.items op }
      status := { st.status with lastSyncTime := now } }

/-- The storage module's `handleSyncOperation` (the draft sibling of the
manager's switch): same four arms, but its `create` arm truncates with
`.slice(0, history.maxItems)`.  `ensureValidHistory` is the identity on the
typed representation used here. -/
def handleSyncOperation (h : ClipboardHistory) (op : SyncOperation) :
    ClipboardHistory :=
  match op.type with
  | .create =>
    match op.data with
    | some d =>
      if (h.items.find? (fun it => it.id == d.id)).isSome then h
      else { h with items := jsSlice (d :: h.items) h.maxItems }
    | none => h
  | .delete =>
    match truthyId op.itemId with
    | some s => { h with items := h.items.filter (fun it => it.id != s) }
    | none => h
  | .clear => { h with items := [] }
  | .update =>
    match op.data with
    | some d =>
      match h.items.findIdx? (fun it => it.id == d.id) with
      | some idx => { h with items := h.items.set idx d }
      | none => h
    | none => h

/-- `ClipboardSyncManager.broadcastOperation`: validates first and throws
`Invalid sync operation: ...` before touching any state; on success the
message sends are fire-and-forget (every failure is caught), then the
operation is applied locally via `handleIncomingOperation` and the status is
updated.  The `Option String` component is the escaped exception, `none`
when the promise resolves. -/
def broadcastOperation (st : ManagerState) (op : SyncOperation) (now : Int) :
    ManagerState × Option String :=
  match validateOperation op with
  | ⟨false, err⟩ =>
    (st, some ("Invalid sync operation: " ++ err.getD ""))
  | ⟨true, _⟩ =>
    let st1 : ManagerState :=
      { st with status := { st.status with isSyncing := true, error := none } }
    let st2 := handleIncomingOperation st1 op now
    ({ st2 with
        status := { st2.status with isSyncing := false, lastSyncTime := now, error := none } },
      none)

/-- The operation record built by `ClipboardSyncManager.createItem`. -/
def mkCreateOp (item : ClipboardItem) (src : OpSource) (now : Int) : SyncOperation :=
  ⟨.create, some item.id, some item, now, src⟩

/-- `ClipboardSyncManager.createItem`: pushes the operation onto
`pendingOperations` BEFORE broadcasting; the filter that removes it again
runs only after `broadcastOperation` resolves, so a thrown validation error
leaves the operation in the pending list. -/
def createItem (st : ManagerState) (item : ClipboardItem) (src : OpSource)
    (now : Int) : ManagerState × Option String :=
  let op := mkCreateOp item src now
  let st1 : ManagerState :=
    { st with status :=
        { st.status with pendingOperations := st.status.pendingOperations ++ [op] } }
  match broadcastOperation st1 op now with
  | (stB, some e) => (stB, some e)
  | (stB, none) =>
    let remaining := stB.status.pendingOperations.filter
      (fun o => !(o.type == .create && o.itemId == some item.id))
    ({ stB with status := { stB.status with pendingOperations := remaining } }, none)

/-- The operation record built by `ClipboardSyncManager.deleteItem`. -/
def mkDeleteOp (itemId : String) (src : OpSource) (now : Int) : SyncOperation :=
  ⟨.delete, some itemId, none, now, src⟩

/-- `ClipboardSyncManager.deleteItem`, same push-then-broadcast shape. -/
def deleteItem (st : ManagerState) (itemId : String) (src : OpSource)
    (now : Int) : ManagerState × Option String :=
  let op := mkDeleteOp itemId src now
  let st1 : ManagerState :=
    { st with status :=
        { st.status with pendingOperations := st.status.pendingOperations ++ [op] } }
  match broadcastOperation st1 op now with
  | (stB, some e) => (stB, some e)
  | (stB, none) =>
    let remaining := stB.status.pendingOperations.filter
      (fun o => !(o.type == .delete && o.itemId == some itemId))
    ({ stB with status := { stB.status with pendingOperations := remaining } }, none)

/-- `ClipboardSyncManager.clearHistory`, same push-then-broadcast shape with
a `clear` operation. -/
def managerClearHistory (st : ManagerState) (src : OpSource) (now : Int) :
    ManagerState × Option String :=
  let op : SyncOperation := ⟨.clear, none, none, now, src⟩
  let st1 : ManagerState :=
    { st with status :=
        { st.status with pendingOperations := st.status.pendingOperations ++ [op] } }
  match broadcastOperation st1 op now with
  | (stB, some e) => (stB, some e)
  | (stB, none) =>
    let remaining := stB.status.pendingOperations.filter (fun o => !(o.type == .clear))
    ({ stB with status := { stB.status with pendingOperations := remaining } }, none)

/-! ### PermissionManager (`src/logic/permissions.ts`) -/

/-- `'granted' | 'denied' | 'prompt'`. -/
inductive PermState where
  | granted
  | denied
  | prompt
deriving DecidableEq, Repr

/-- The persisted `PermissionStatus` record. -/
structure PermissionStatus where
  clipboard : PermState
  lastChecked : Int
  hasRequested : Bool
deriving DecidableEq, Repr

/-- `DEFAULT_PERMISSION_STATUS = { clipboard: 'prompt', lastChecked: 0, hasRequested: false }`. -/
def DEFAULT_PERMISSION_STATUS : PermissionStatus := ⟨.prompt, 0, false⟩

/-- `7 * 24 * 60 * 60 * 1000` from `checkClipboardPermission`. -/
def sevenDaysMs : Int := 7 * 24 * 60 * 60 * 1000

/-- `30 * 24 * 60 * 60 * 1000` from `shouldShowPermissionRequest`. -/
def thirtyDaysMs : Int := 30 * 24 * 60 * 60 * 1000

/-- A JavaScript exception as far as `queryClipboardPermission`'s catch
block can distinguish it: whether it is a `DOMException`, and its `name`. -/
structure JsError where
  isDOMException : Bool
  name : String
deriving DecidableEq, Repr

/-- Outcome of the `try` body of `queryClipboardPermission` (the browser
API interaction): it either returns a boolean (`true` after a successful
clipboard read, `false` when `browser.permissions.request` is refused) or
throws. -/
inductive ProbeAttempt where
  | success (granted : Bool)
  | thrown (e : JsError)
deriving DecidableEq, Repr

/-- `PermissionManager.queryClipboardPermission`: the catch block turns a
`DOMException` named `NotAllowedError` into the plain outcome `false`, and
every other exception into `true`; no exception escapes, so the model is a
total boolean function of the attempt. -/
def queryClipboardPermission (attempt : ProbeAttempt) : Bool :=
  match attempt with
  | .success granted => granted
  | .thrown e =>
    if e.isDOMException = true ∧ e.name = "NotAllowedError" then false else true

/-- Result of one `checkClipboardPermission` call: the returned boolean, the
stored record afterwards, and whether a live probe
(`queryClipboardPermission`) was performed. -/
structure CheckResult where
  result : Bool
  status : PermissionStatus
  probed : Bool
deriving DecidableEq, Repr

/-- `PermissionManager.checkClipboardPermission`, guard for guard:
stored `granted` is trusted; stored `denied` with `hasRequested` returns
`false` immediately (no elapsed-time test on this path); a record that was
never requested is probed and overwritten; otherwise (`prompt` with
`hasRequested`) the probe happens only when more than 7 days have passed
since `lastChecked`.  The probe outcome is the `probe` parameter and
`Date.now()` is `now`. -/
def checkClipboardPermission (st : PermissionStatus) (now : Int) (probe : Bool) :
    CheckResult :=
  if st.clipboard = .granted then
    ⟨true, st, false⟩
  else if st.clipboard = .denied ∧ st.hasRequested = true then
    ⟨false, st, false⟩
  else if st.hasRequested = false then
    ⟨probe, ⟨if probe then .granted else .denied, now, true⟩, true⟩
  else if now - st.lastChecked > sevenDaysMs then
    ⟨probe, ⟨if probe then .granted else .denied, now, true⟩, true⟩
  else
    ⟨false, st, false⟩

/-- `PermissionManager.shouldShowPermissionRequest`, guard for guard:
`granted` never shows; never-requested always shows; `denied` (after a
request) shows only when more than 30 days have passed since `lastChecked`;
anything else (a `prompt` record that was already requested) does not show. -/
def shouldShowPermissionRequest (st : PermissionStatus) (now : Int) : Bool :=
  if st.clipboard = .granted then false
  else if st.hasRequested = false then true
  else if st.clipboard = .denied then now - st.lastChecked > thirtyDaysMs
  else false

/-! ## Claim theorems -/

/-- C10: for every starting history, the storage module's `clearHistory`
overwrites the persisted state with the default `{items: [], maxItems: 50}`;
in particular a `maxItems` previously customized to another value is reset
to 50 rather than preserved. -/
theorem C10_clearHistory_resets_to_default (h : ClipboardHistory) :
    clearHistory h = ⟨[], 50⟩ :=
  rfl

/-- C9 counterexample: the claim says `load` guarantees `maxItems` is a
positive integer, substituting the default when the persisted value is zero
or negative.  But `ensureValidHistory` only tests
`typeof history.maxItems !== 'number'`, so a persisted `maxItems` of `0`
(a perfectly good JS number) survives normalization, and the loaded
snapshot's `maxItems` is not positive. -/
theorem C9_counterexample :
    (loadHistory ⟨.arr [], .num 0⟩).maxItems = 0 ∧
      ¬(0 < (loadHistory ⟨.arr [], .num 0⟩).maxItems) := by
  constructor
  · rfl
  · decide

/-- C9 amended: `load` always yields a genuine list for `items` (the
default `[]` exactly when the persisted field was not an array) and always
yields a number for `maxItems` (the default `50` exactly when the persisted
field was not a number); it does NOT force `maxItems` to be positive — any
numeric value, including zero and negatives, is preserved. -/
theorem C9_load_normalizes (raw : RawHistory) :
    ((loadHistory raw).items = [] ∨ raw.items = .arr (loadHistory raw).items) ∧
    ((loadHistory raw).maxItems = 50 ∨ raw.maxItems = .num (loadHistory raw).maxItems) ∧
    (raw.items = .notArray → (loadHistory raw).items = []) ∧
    (raw.maxItems = .notNumber → (loadHistory raw).maxItems = 50) ∧
    (∀ n, raw.maxItems = .num n → (loadHistory raw).maxItems = n) := by
  obtain ⟨ri, rm⟩ := raw
  cases ri <;> cases rm <;>
    simp [loadHistory, ensureValidHistory, DEFAULT_HISTORY]

/-- C9 witness: the fully malformed persisted value gets both defaults, and
a numeric `maxItems` is preserved verbatim. -/
theorem C9_load_normalizes_witness :
    (loadHistory ⟨.notArray, .notNumber⟩).items = [] ∧
      (loadHistory ⟨.notArray, .notNumber⟩).maxItems = 50 ∧
      (loadHistory ⟨.notArray, .num 7⟩).maxItems = 7 :=
  ⟨(C9_load_normalizes ⟨.notArray, .notNumber⟩).2.2.1 rfl,
   (C9_load_normalizes ⟨.notArray, .notNumber⟩).2.2.2.1 rfl,
   (C9_load_normalizes ⟨.notArray, .num 7⟩).2.2.2.2 7 rfl⟩

/-- C7: in the probe's catch block, an exception that is specifically a
`DOMException` named `NotAllowedError` produces the ordinary boolean
outcome `false` (not a rethrown error — the function is total), and every
other exception produces the outcome `true`. -/
theorem C7_probe_failure_semantics (e : JsError) :
    (e.isDOMException = true → e.name = "NotAllowedError" →
      queryClipboardPermission (.thrown e) = false) ∧
    (¬(e.isDOMException = true ∧ e.name = "NotAllowedError") →
      queryClipboardPermission (.thrown e) = true) := by
  constructor
  · intro h1 h2
    simp [queryClipboardPermission, h1, h2]
  · intro h
    simp [queryClipboardPermission, h]

/-- C7 witness: a `NotAllowedError` `DOMException` yields `false`; an
`AbortError` (or any non-`DOMException`) yields `true`. -/
theorem C7_probe_failure_semantics_witness :
    queryClipboardPermission (.thrown ⟨true, "NotAllowedError"⟩) = false ∧
      queryClipboardPermission (.thrown ⟨true, "AbortError"⟩) = true :=
  ⟨(C7_probe_failure_semantics ⟨true, "NotAllowedError"⟩).1 rfl rfl,
   (C7_probe_failure_semantics ⟨true, "AbortError"⟩).2 (by simp)⟩

/-- C2 counterexample: a record stored as `denied` with `hasRequested =
true` whose `lastChecked` lies more than 7 days in the past (8 days here)
is, per the claim, supposed to trigger one live probe and a state update.
The code instead hits the early guard
`if (storedStatus.clipboard === 'denied' && storedStatus.hasRequested)`
and returns `false` with no probe (`probed = false`) and no state change —
even with a probe that would have reported `true`. -/
theorem C2_counterexample :
    checkClipboardPermission ⟨.denied, 0, true⟩ (8 * 24 * 60 * 60 * 1000) true
      = ⟨false, ⟨.denied, 0, true⟩, false⟩ := by
  decide

/-- C2 amended: a stored `denied` record with `everRequested = true` always
makes `checkClipboardPermission` return `false` without probing and without
updating the record, no matter how much time has elapsed; the 7-day
re-probe path exists but is reachable only for a `prompt` record with
`everRequested = true`. -/
theorem C2_denied_is_never_reprobed (st : PermissionStatus) (now : Int) (probe : Bool) :
    (st.clipboard = .denied → st.hasRequested = true →
      checkClipboardPermission st now probe = ⟨false, st, false⟩) ∧
    (st.clipboard = .prompt → st.hasRequested = true →
      now - st.lastChecked > sevenDaysMs →
      checkClipboardPermission st now probe
        = ⟨probe, ⟨if probe then .granted else .denied, now, true⟩, true⟩) := by
  constructor
  · intro hd hr
    simp [checkClipboardPermission, hd, hr]
  · intro hp hr ht
    simp [checkClipboardPermission, hp, hr, ht]

/-- C2 witness: a freshly denied record (checked just now) returns `false`
unchanged, and a `prompt` record last checked 8 days ago is re-probed. -/
theorem C2_denied_is_never_reprobed_witness :
    checkClipboardPermission ⟨.denied, 5, true⟩ 6 false = ⟨false, ⟨.denied, 5, true⟩, false⟩ ∧
      checkClipboardPermission ⟨.prompt, 0, true⟩ (8 * 24 * 60 * 60 * 1000) true
        = ⟨true, ⟨.granted, 8 * 24 * 60 * 60 * 1000, true⟩, true⟩ :=
  ⟨(C2_denied_is_never_reprobed ⟨.denied, 5, true⟩ 6 false).1 rfl rfl,
   (C2_denied_is_never_reprobed ⟨.prompt, 0, true⟩ (8 * 24 * 60 * 60 * 1000) true).2
      rfl rfl (by decide)⟩

/-- C6: starting from the initial record
`{clipboard: 'prompt', lastChecked: 0, hasRequested: false}`, one
`checkClipboardPermission` call probes and rewrites the record to `granted`
(probe succeeded) or `denied` (probe refused) with `hasRequested = true`
and `lastChecked = now`, returning the probe outcome.  Afterwards
`shouldShowPermissionRequest` follows its guards in order: a `granted`
record never shows the prompt; a not-yet-granted record that was never
requested always shows it; a `denied` record that was requested shows it
exactly when more than 30 days have elapsed since `lastChecked`. -/
theorem C6_permission_gating (st : PermissionStatus) (now now2 : Int) (probe : Bool) :
    (checkClipboardPermission DEFAULT_PERMISSION_STATUS now probe
      = ⟨probe, ⟨if probe then .granted else .denied, now, true⟩, true⟩) ∧
    (st.clipboard = .granted → shouldShowPermissionRequest st now2 = false) ∧
    (st.clipboard ≠ .granted → st.hasRequested = false →
      shouldShowPermissionRequest st now2 = true) ∧
    (st.clipboard = .denied → st.hasRequested = true →
      (shouldShowPermissionRequest st now2 = true ↔ now2 - st.lastChecked > thirtyDaysMs)) := by
  refine ⟨?_, ?_, ?_, ?_⟩
  · simp [checkClipboardPermission, DEFAULT_PERMISSION_STATUS]
  · intro hg
    simp [shouldShowPermissionRequest, hg]
  · intro hg hr
    simp [shouldShowPermissionRequest, hg, hr]
  · intro hd hr
    simp [shouldShowPermissionRequest, hd, hr]

/-- C6 witness: a failing probe from the initial record leaves a `denied`,
requested record; 29 days later the prompt is suppressed, 31 days later it
is shown again; a granted record never prompts. -/
theorem C6_permission_gating_witness :
    checkClipboardPermission DEFAULT_PERMISSION_STATUS 1000 false
      = ⟨false, ⟨.denied, 1000, true⟩, true⟩ ∧
    shouldShowPermissionRequest ⟨.granted, 1000, true⟩ 2000 = false ∧
    shouldShowPermissionRequest ⟨.denied, 0, true⟩ (29 * 24 * 60 * 60 * 1000) = false ∧
    shouldShowPermissionRequest ⟨.denied, 0, true⟩ (31 * 24 * 60 * 60 * 1000) = true := by
  refine ⟨(C6_permission_gating ⟨.prompt, 0, false⟩ 1000 0 false).1, ?_, ?_, ?_⟩
  · exact (C6_permission_gating ⟨.granted, 1000, true⟩ 0 2000 false).2.1 rfl
  · have h := ((C6_permission_gating ⟨.denied, 0, true⟩ 0 (29 * 24 * 60 * 60 * 1000)
      false).2.2.2 rfl rfl)
    cases hb : shouldShowPermissionRequest ⟨.denied, 0, true⟩ (29 * 24 * 60 * 60 * 1000) with
    | false => rfl
    | true => exact absurd (h.mp hb) (by decide)
  · exact ((C6_permission_gating ⟨.denied, 0, true⟩ 0 (31 * 24 * 60 * 60 * 1000)
      false).2.2.2 rfl rfl).mpr (by decide)

/-- C3 counterexample: the claim says `validateOperation` rejects every
`update` operation whose payload lacks a non-empty `id` or `content`.  This
well-formed `update` operation carries a payload with EMPTY `id` and EMPTY
`content`, yet validation accepts it, because the `update` arm only checks
`!operation.data || !operation.itemId` and never inspects the payload's
fields. -/
theorem C3_counterexample :
    validateOperation ⟨.update, some "x", some ⟨"", "", 1, .text, none⟩, 1, .popup⟩
      = ⟨true, none⟩ := by
  rfl

/-- C3 amended: `validateOperation` accepts an operation (with a
recognized kind and origin) exactly when its timestamp is truthy and the
kind-specific requirement holds: a `create` needs a payload with non-empty
`id` and non-empty `content`; a `delete` needs a non-empty `itemId`; an
`update` needs a payload to be present and a non-empty `itemId`, but its
payload's `id`/`content` are NOT inspected; a `clear` needs nothing
further. -/
theorem C3_validate_characterization (op : SyncOperation) :
    (validateOperation op).valid = true ↔
      (op.timestamp ≠ 0 ∧
        match op.type with
        | .create => ∃ d, op.data = some d ∧ d.id ≠ "" ∧ d.content ≠ ""
        | .delete => ∃ s, op.itemId = some s ∧ s ≠ ""
        | .update => op.data ≠ none ∧ ∃ s, op.itemId = some s ∧ s ≠ ""
        | .clear => True) := by
  obtain ⟨ty, oid, od, ts, src⟩ := op
  by_cases hts : ts = 0
  · simp [validateOperation, hts]
  · cases ty <;> cases od <;> cases oid <;>
      simp [validateOperation, truthyId, hts] <;>
      split <;> simp_all <;> aesop

/-- C4 counterexample: submitting a `create` whose item has an empty `id`
(validation fails with `Create operation data is incomplete`) from an empty
coordinator state.  The claim says the failed operation is not left in
`SyncStatus.pendingOperations`, but `createItem` pushes the operation
BEFORE `broadcastOperation` validates, and the removal filter runs only
after a successful broadcast — so the rejected operation stays pending. -/
theorem C4_counterexample :
    (createItem ⟨⟨[], 50⟩, ⟨false, 0, [], none⟩⟩ ⟨"", "c", 1, .text, none⟩ .popup 1).2
        = some "Invalid sync operation: Create operation data is incomplete" ∧
      (createItem ⟨⟨[], 50⟩, ⟨false, 0, [], none⟩⟩ ⟨"", "c", 1, .text, none⟩ .popup 1).1.status.pendingOperations
        = [mkCreateOp ⟨"", "c", 1, .text, none⟩ .popup 1] := by
  constructor <;> rfl

/-- C4 amended: when the operation built by `createItem`/`deleteItem` fails
validation, the call fails with an `Invalid sync operation` error and the
HistoryStore is untouched — but the operation is NOT removed from
`pendingOperations`: it remains there, appended by the optimistic push that
precedes validation. -/
theorem C4_invalid_submit_keeps_pending (st : ManagerState) (item : ClipboardItem)
    (itemId : String) (src : OpSource) (now : Int) :
    ((validateOperation (mkCreateOp item src now)).valid = false →
      (createItem st item src now).2.isSome = true ∧
      (createItem st item src now).1.history = st.history ∧
      (createItem st item src now).1.status.pendingOperations
        = st.status.pendingOperations ++ [mkCreateOp item src now]) ∧
    ((validateOperation (mkDeleteOp itemId src now)).valid = false →
      (deleteItem st itemId src now).2.isSome = true ∧
      (deleteItem st itemId src now).1.history = st.history ∧
      (deleteItem st itemId src now).1.status.pendingOperations
        = st.status.pendingOperations ++ [mkDeleteOp itemId src now]) := by
  constructor
  · intro h
    rcases hv : validateOperation (mkCreateOp item src now) with ⟨v, err⟩
    rw [hv] at h
    simp only at h
    subst h
    simp [createItem, broadcastOperation, hv]
  · intro h
    rcases hv : validateOperation (mkDeleteOp itemId src now) with ⟨v, err⟩
    rw [hv] at h
    simp only at h
    subst h
    simp [deleteItem, broadcastOperation, hv]

/-- C4 witness: deleting with an empty `itemId` from an empty coordinator
state raises the validation error, leaves the history untouched, and leaves
the invalid delete operation pending. -/
theorem C4_invalid_submit_keeps_pending_witness :
    (deleteItem ⟨⟨[], 50⟩, ⟨false, 0, [], none⟩⟩ "" .popup 1).2.isSome = true ∧
      (deleteItem ⟨⟨[], 50⟩, ⟨false, 0, [], none⟩⟩ "" .popup 1).1.history = ⟨[], 50⟩ ∧
      (deleteItem ⟨⟨[], 50⟩, ⟨false, 0, [], none⟩⟩ "" .popup 1).1.status.pendingOperations
        = [] ++ [mkDeleteOp "" .popup 1] :=
  (C4_invalid_submit_keeps_pending ⟨⟨[], 50⟩, ⟨false, 0, [], none⟩⟩
      ⟨"x", "c", 1, .text, none⟩ "" .popup 1).2 (by rfl)

/-- The history reached by 50 `addToHistory` calls at the default capacity
of 50: exactly full, `items.length = maxItems = 50`. -/
def fullHistory : ClipboardHistory :=
  (List.range 50).foldl
    (fun h i => addToHistory h "c" .text none (toString i) 0) DEFAULT_HISTORY

/-- C1: the capacity invariant `items.length <= maxItems` is the spec's
stated invariant after ANY mutation, and the storage module's sibling
implementation (`handleSyncOperation`) duly truncates its `create` arm with
`.slice(0, history.maxItems)` — but
`ClipboardSyncManager.handleIncomingOperation` prepends without truncating.
Starting from the reachable exactly-full history (50 items, `maxItems =
50`, built by 50 `addToHistory` calls), one valid incoming `create` from
the popup leaves 51 items: the invariant is violated and nothing is
evicted. -/
theorem C1_incoming_create_overflows_capacity :
    fullHistory.items.length = 50 ∧
    fullHistory.maxItems = 50 ∧
    (handleIncomingOperation ⟨fullHistory, ⟨false, 0, [], none⟩⟩
        ⟨.create, some "new", some ⟨"new", "overflow", 1, .text, none⟩, 1, .popup⟩
        1).history.maxItems = 50 ∧
    (handleIncomingOperation ⟨fullHistory, ⟨false, 0, [], none⟩⟩
        ⟨.create, some "new", some ⟨"new", "overflow", 1, .text, none⟩, 1, .popup⟩
        1).history.items.length = 51 := by
  exact ⟨rfl, rfl, rfl, rfl⟩

/-- `jsSlice` of a cons is either empty or keeps the head. -/
theorem jsSlice_cons_shape {α : Type} (d : α) (l : List α) (m : Int) :
    jsSlice (d :: l) m = [] ∨ ∃ t, jsSlice (d :: l) m = d :: t := by
  have htake : ∀ k : Nat, (d :: l).take k = [] ∨ ∃ t, (d :: l).take k = d :: t := by
    intro k
    cases k with
    | zero => exact Or.inl rfl
    | succ k => exact Or.inr ⟨l.take k, rfl⟩
  unfold jsSlice
  by_cases hm : m < 0
  · rw [if_pos hm]; exact htake _
  · rw [if_neg hm]; exact htake _

/-- If `jsSlice` empties a cons, it also empties the corresponding
singleton (the slice bound is so small, or so negative, that re-inserting
the head still yields `[]`). -/
theorem jsSlice_cons_eq_nil {α : Type} (d : α) (l : List α) (m : Int)
    (h : jsSlice (d :: l) m = []) : jsSlice [d] m = [] := by
  unfold jsSlice at h ⊢
  by_cases hm : m < 0
  · rw [if_pos hm] at h ⊢
    have h0 : ((((d :: l).length : Int) + m).toNat) = 0 := by
      by_contra hne
      rcases Nat.exists_eq_succ_of_ne_zero hne with ⟨k, hk⟩
      rw [hk] at h
      simp at h
    have hle : (((d :: l).length : Int) + m) ≤ 0 := Int.toNat_eq_zero.mp h0
    have hle1 : ((([d] : List α).length : Int) + m) ≤ 0 := by
      simp at hle ⊢
      omega
    rw [Int.toNat_eq_zero.mpr hle1]
    rfl
  · rw [if_neg hm] at h ⊢
    have h0 : m.toNat = 0 := by
      by_contra hne
      rcases Nat.exists_eq_succ_of_ne_zero hne with ⟨k, hk⟩
      rw [hk] at h
      simp at h
    rw [h0]
    rfl

/-- The `create`/`delete` arms of the manager's incoming switch are
idempotent on the item list. -/
theorem applyIncomingToItems_idem (items : List ClipboardItem) (op : SyncOperation)
    (hk : op.type = .create ∨ op.type = .delete) :
    applyIncomingToItems (applyIncomingToItems items op) op
      = applyIncomingToItems items op := by
  obtain ⟨ty, oid, od, ts, src⟩ := op
  rcases hk with hk | hk <;> subst hk
  · cases od with
    | none => rfl
    | some d =>
      by_cases hf : (items.find? (fun it => it.id == d.id)).isSome
      · simp [applyIncomingToItems, hf]
      · simp only [applyIncomingToItems, hf, if_neg, Bool.not_eq_true] at *
        simp [hf, List.find?_cons_of_pos _ (show (d.id == d.id) = true by simp)]
  · cases oid with
    | none => rfl
    | some s =>
      by_cases hs : s = ""
      · simp [applyIncomingToItems, truthyId, hs]
      · simp [applyIncomingToItems, truthyId, hs, List.filter_filter]

/-- The storage module's `handleSyncOperation` is idempotent for `create`
and `delete` operations, including the capacity-truncating `create` arm
(even for degenerate `maxItems` values where the slice drops the new item
itself). -/
theorem handleSyncOperation_idem (h : ClipboardHistory) (op : SyncOperation)
    (hk : op.type = .create ∨ op.type = .delete) :
    handleSyncOperation (handleSyncOperation h op) op = handleSyncOperation h op := by
  obtain ⟨ty, oid, od, ts, src⟩ := op
  rcases hk with hk | hk <;> subst hk
  · cases od with
    | none => rfl
    | some d =>
      by_cases hf : (h.items.find? (fun it => it.id == d.id)).isSome
      · simp [handleSyncOperation, hf]
      · rcases jsSlice_cons_shape d h.items h.maxItems with hnil | ⟨t, ht⟩
        · have hsingle := jsSlice_cons_eq_nil d h.items h.maxItems hnil
          simp [handleSyncOperation, hf, hnil, hsingle]
        · simp [handleSyncOperation, hf, ht,
            List.find?_cons_of_pos _ (show (d.id == d.id) = true by simp)]
  · cases oid with
    | none => rfl
    | some s =>
      by_cases hs : s = ""
      · simp [handleSyncOperation, truthyId, hs]
      · simp [handleSyncOperation, truthyId, hs, List.filter_filter]

/-- C8: applying the same `create` or `delete` operation twice, through
either sync application path — the storage module's `handleSyncOperation`
or the manager's `handleIncomingOperation` — yields exactly the same items
as applying it once: a `create` whose id is already present is a no-op, and
a repeated `delete` filters nothing further. -/
theorem C8_idempotent_application (h : ClipboardHistory) (st : ManagerState)
    (op : SyncOperation) (n1 n2 : Int)
    (hk : op.type = .create ∨ op.type = .delete) :
    handleSyncOperation (handleSyncOperation h op) op = handleSyncOperation h op ∧
    (handleIncomingOperation (handleIncomingOperation st op n1) op n2).history.items
      = (handleIncomingOperation st op n1).history.items := by
  refine ⟨handleSyncOperation_idem h op hk, ?_⟩
  by_cases hb : op.source = .background
  · simp [handleIncomingOperation, hb]
  · by_cases hv : (validateOperation op).valid = false
    · simp [handleIncomingOperation, hb, hv]
    · simp [handleIncomingOperation, hb, hv]
      exact applyIncomingToItems_idem st.history.items op hk

/-- C8 witness: a concrete repeated `delete` on a one-item history. -/
theorem C8_idempotent_application_witness :
    handleSyncOperation
        (handleSyncOperation ⟨[⟨"A", "a", 0, .text, none⟩], 50⟩
          ⟨.delete, some "A", none, 1, .popup⟩)
        ⟨.delete, some "A", none, 1, .popup⟩
      = handleSyncOperation ⟨[⟨"A", "a", 0, .text, none⟩], 50⟩
          ⟨.delete, some "A", none, 1, .popup⟩ :=
  (C8_idempotent_application ⟨[⟨"A", "a", 0, .text, none⟩], 50⟩
      ⟨⟨[], 50⟩, ⟨false, 0, [], none⟩⟩ ⟨.delete, some "A", none, 1, .popup⟩ 1 2
      (Or.inr rfl)).1

/-- Filtering by an exact timestamp commutes with `orderedInsert`: the
inserted element lands in front of exactly the equal-timestamp elements it
was inserted before. -/
theorem filter_orderedInsert_ts (a : SyncOperation) (l : List SyncOperation) (t : Int) :
    (List.orderedInsert tsLe a l).filter (fun o => decide (o.timestamp = t))
      = if a.timestamp = t
          then a :: l.filter (fun o => decide (o.timestamp = t))
          else l.filter (fun o => decide (o.timestamp = t)) := by
  induction l with
  | nil =>
    by_cases h : a.timestamp = t <;> simp [h]
  | cons b l ih =>
    by_cases hab : tsLe a b
    · rw [List.orderedInsert_of_le _ _ hab]
      by_cases ha : a.timestamp = t <;> simp [ha]
    · have hrw : List.orderedInsert tsLe a (b :: l) = b :: List.orderedInsert tsLe a l := by
        simp [List.orderedInsert, hab]
      rw [hrw]
      have hba : b.timestamp < a.timestamp := by
        simpa [tsLe] using hab
      by_cases ha : a.timestamp = t
      · have hb : ¬(b.timestamp = t) := by omega
        simp [ha, hb, ih]
      · by_cases hb : b.timestamp = t <;> simp [ha, hb, ih]

/-- Stability of the timestamp sort: the subsequence of operations sharing
any one timestamp keeps its input order. -/
theorem filter_sortByTimestamp (ops : List SyncOperation) (t : Int) :
    (sortByTimestamp ops).filter (fun o => decide (o.timestamp = t))
      = ops.filter (fun o => decide (o.timestamp = t)) := by
  induction ops with
  | nil => rfl
  | cons a l ih =>
    show (List.orderedInsert tsLe a (List.insertionSort tsLe l)).filter _ = _
    rw [filter_orderedInsert_ts]
    simp only [sortByTimestamp] at ih
    by_cases h : a.timestamp = t <;> simp [h, ih]

/-- `resolveLoop` yields one result per operation. -/
theorem resolveLoop_length (ops : List SyncOperation) (seen : List String) :
    (resolveLoop seen ops).length = ops.length := by
  induction ops generalizing seen with
  | nil => rfl
  | cons op rest ih =>
    unfold resolveLoop
    cases ht : truthyId op.itemId with
    | none => simp [ih]
    | some s =>
      by_cases hs : s ∈ seen
      · simp [hs, ih]
      · simp [hs, ih]

/-- Characterization of the conflict flags: walking from `processedIds =
seen`, the `i`-th result is unresolved exactly when the `i`-th operation
has a truthy `itemId` that is in `seen` or is the truthy `itemId` of an
earlier operation in the walk. -/
theorem resolveLoop_get?_resolved (ops : List SyncOperation) (seen : List String)
    (i : Nat) (r : ConflictResolution) (o : SyncOperation)
    (hr : (resolveLoop seen ops).get? i = some r) (ho : ops.get? i = some o) :
    (r.resolved = false ↔
      ∃ s, truthyId o.itemId = some s ∧
        (s ∈ seen ∨ s ∈ (ops.take i).filterMap (fun x => truthyId x.itemId))) := by
  induction ops generalizing seen i with
  | nil => simp at ho
  | cons op rest ih =>
    cases i with
    | zero =>
      simp only [List.get?_cons_zero, Option.some_inj] at ho
      subst ho
      unfold resolveLoop at hr
      cases ht : truthyId op.itemId with
      | none =>
        rw [ht] at hr
        dsimp only at hr
        simp only [List.get?_cons_zero, Option.some_inj] at hr
        subst hr
        simp [ht]
      | some s =>
        rw [ht] at hr
        dsimp only at hr
        by_cases hs : s ∈ seen
        · rw [if_pos hs] at hr
          simp only [List.get?_cons_zero, Option.some_inj] at hr
          subst hr
          simpa [ht] using hs
        · rw [if_neg hs] at hr
          simp only [List.get?_cons_zero, Option.some_inj] at hr
          subst hr
          simp [ht, hs]
    | succ j =>
      simp only [List.get?_cons_succ] at ho
      unfold resolveLoop at hr
      cases ht : truthyId op.itemId with
      | none =>
        rw [ht] at hr
        dsimp only at hr
        simp only [List.get?_cons_succ] at hr
        rw [ih seen j hr ho]
        simp [List.filterMap_cons, ht]
      | some s =>
        rw [ht] at hr
        dsimp only at hr
        by_cases hs : s ∈ seen
        · rw [if_pos hs] at hr
          simp only [List.get?_cons_succ] at hr
          rw [ih seen j hr ho]
          simp only [List.take_succ_cons, List.filterMap_cons, ht, List.mem_cons]
          constructor
          · rintro ⟨s', hts, h⟩
            exact ⟨s', hts, by tauto⟩
          · rintro ⟨s', hts, h⟩
            refine ⟨s', hts, ?_⟩
            rcases h with h | h
            · exact Or.inl h
            · rcases h with h | h
              · rw [h]; exact Or.inl hs
              · exact Or.inr h
        · rw [if_neg hs] at hr
          simp only [List.get?_cons_succ] at hr
          rw [ih (s :: seen) j hr ho]
          simp only [List.take_succ_cons, List.filterMap_cons, ht, List.mem_cons]
          constructor
          · rintro ⟨s', hts, h⟩
            exact ⟨s', hts, by tauto⟩
          · rintro ⟨s', hts, h⟩
            exact ⟨s', hts, by tauto⟩

/-- C5 counterexample: the claim says a `clear` operation is never marked
conflicting.  But conflict detection keys purely on a truthy `itemId`
field, whatever the kind, and the `Operation` shape allows a `clear` to
carry one (validation accepts it: `clear` has no extra requirements).  In
the batch `[delete A @1, clear(itemId A) @2]` the `clear` is marked
unresolved. -/
theorem C5_counterexample :
    resolveConflicts
        [⟨.delete, some "A", none, 1, .popup⟩, ⟨.clear, some "A", none, 2, .popup⟩]
      = [⟨true, some ⟨.delete, some "A", none, 1, .popup⟩, none⟩,
         ⟨false, none, some "Conflict detected for item A"⟩] ∧
    (validateOperation ⟨.clear, some "A", none, 2, .popup⟩).valid = true := by
  constructor <;> rfl

/-- C5 amended: `resolveConflicts` processes operations in ascending
timestamp order with ties kept in input order (the ECMAScript sort is
stable); it emits one result per operation; a result is unresolved exactly
when its operation's `itemId` is truthy and an earlier operation in the
sorted pass had the same truthy `itemId` — hence every later operation on
an already-accepted `itemId` is unresolved (at most one accepted per
`itemId`, the earliest), and every operation without a truthy `itemId` —
in particular every `clear` the system itself produces, which carries none
— is resolved.  A `clear` that does carry an `itemId` is subject to the
same keying (see the counterexample).  On the claim's batch
`[A@1, A@2, B@1]`, `A@1` and `B@1` are resolved and `A@2` is conflicting. -/
theorem C5_conflict_classification (ops : List SyncOperation) (t : Int)
    (i j : Nat) (r rj : ConflictResolution) (oi oj : SyncOperation) (s : String) :
    (resolveConflicts ops).length = ops.length ∧
    List.Sorted tsLe (sortByTimestamp ops) ∧
    (sortByTimestamp ops).Perm ops ∧
    (sortByTimestamp ops).filter (fun o => decide (o.timestamp = t))
      = ops.filter (fun o => decide (o.timestamp = t)) ∧
    ((resolveConflicts ops).get? i = some r → (sortByTimestamp ops).get? i = some oi →
      (r.resolved = false ↔
        ∃ s', truthyId oi.itemId = some s' ∧
          s' ∈ ((sortByTimestamp ops).take i).filterMap (fun x => truthyId x.itemId))) ∧
    (i < j → (sortByTimestamp ops).get? i = some oi →
      (sortByTimestamp ops).get? j = some oj →
      truthyId oi.itemId = some s → truthyId oj.itemId = some s →
      (resolveConflicts ops).get? j = some rj → rj.resolved = false) ∧
    ((sortByTimestamp ops).get? i = some oi → truthyId oi.itemId = none →
      (resolveConflicts ops).get? i = some r → r.resolved = true) ∧
    resolveConflicts
        [⟨.delete, some "A", none, 1, .popup⟩, ⟨.delete, some "A", none, 2, .popup⟩,
          ⟨.delete, some "B", none, 1, .popup⟩]
      = [⟨true, some ⟨.delete, some "A", none, 1, .popup⟩, none⟩,
         ⟨true, some ⟨.delete, some "B", none, 1, .popup⟩, none⟩,
         ⟨false, none, some "Conflict detected for item A"⟩] := by
  refine ⟨?_, ?_, ?_, ?_, ?_, ?_, ?_, ?_⟩
  · rw [resolveConflicts, resolveLoop_length, sortByTimestamp,
      List.length_insertionSort]
  · exact List.sorted_insertionSort tsLe ops
  · exact List.perm_insertionSort tsLe ops
  · exact filter_sortByTimestamp ops t
  · intro hr ho
    have := resolveLoop_get?_resolved (sortByTimestamp ops) [] i r oi hr ho
    simpa using this
  · intro hij hoi hoj hti htj hrj
    have hchar := resolveLoop_get?_resolved (sortByTimestamp ops) [] j rj oj hrj hoj
    refine hchar.mpr ⟨s, htj, Or.inr ?_⟩
    have hmem : oi ∈ (sortByTimestamp ops).take j := by
      have hget : ((sortByTimestamp ops).take j).get? i = some oi := by
        rw [List.get?_eq_getElem?] at hoi ⊢
        rw [List.getElem?_take_of_lt hij]
        exact hoi
      exact List.get?_mem hget
    exact List.mem_filterMap.mpr ⟨oi, hmem, hti⟩
  · intro hoi hnone hr
    have hchar := resolveLoop_get?_resolved (sortByTimestamp ops) [] i r oi hr hoi
    cases hres : r.resolved with
    | true => rfl
    | false =>
      rcases hchar.mp hres with ⟨s', hs', _⟩
      rw [hnone] at hs'
      cases hs'
  · rfl

/-- C5 witness: on the claim's own batch, the later operation on `A`
(index 2 of the sorted pass) is marked unresolved. -/
theorem C5_conflict_classification_witness :
    ∃ rj : ConflictResolution,
      (resolveConflicts
          [⟨.delete, some "A", none, 1, .popup⟩, ⟨.delete, some "A", none, 2, .popup⟩,
            ⟨.delete, some "B", none, 1, .popup⟩]).get? 2 = some rj ∧
        rj.resolved = false := by
  refine ⟨⟨false, none, some "Conflict detected for item A"⟩, rfl, ?_⟩
  exact (C5_conflict_classification
      [⟨.delete, some "A", none, 1, .popup⟩, ⟨.delete, some "A", none, 2, .popup⟩,
        ⟨.delete, some "B", none, 1, .popup⟩]
      0 0 2 ⟨true, none, none⟩ ⟨false, none, some "Conflict detected for item A"⟩
      ⟨.delete, some "A", none, 1, .popup⟩ ⟨.delete, some "A", none, 2, .popup⟩
      "A").2.2.2.2.2.1 (by omega) rfl rfl rfl rfl rfl

end ClipboardExt
